import Mathlib

/-!
Verification of the diary event-window and repeat-expansion engine (diary.py).

Modelling conventions:
* A naive local datetime is modelled as an integer number of seconds on the
  linear wall-clock timeline.  A calendar day is 86400 seconds and the day
  boundaries (midnights) are exactly the integer multiples of 86400, so
  `datetime(now.year, now.month, now.day)` (truncation of `now` to 00:00 of
  the same day) is `now - now % 86400`.  `datetime.timedelta(days=n)` is
  `n * 86400`.  Comparison of ISO strings agrees with comparison of the
  parsed datetimes, so the sort key `k['ISO']` is modelled by the integer
  timestamp.
* An event dictionary is modelled by the `Event` structure.  The required
  keys `title` and `ISO` are plain fields (`iso` already parsed to an
  integer timestamp); the optional keys `location` and `repeat` are
  `Option` fields (`rep` models the `repeat` key, whose name is reserved
  in Lean).  Python's truthiness test `if not event_dict.get('repeat',
  False)` identifies a missing key with the value `0`, modelled by
  `repeatOrZero`.
* The two `while` loops of the source advance a candidate timestamp by a
  fixed step.  They are modelled with an explicit iteration budget that
  equals the exact number of steps a positive-step run needs
  (`(bound - start).toNat + 1`); a run that exhausts the budget (which
  happens exactly when the Python loop would never exit, i.e. for a
  non-positive step with the candidate below the bound) is `none`.
* For the load-time validation claims the raw, unvalidated shape of a
  stored record is `RawEvent`, whose required fields are still optional
  and whose timestamp is still a string.
-/

namespace Diary

/-- One calendar day, in seconds (`datetime.timedelta(days=1)`). -/
def secondsPerDay : Int := 86400

/-- An event dictionary with the required keys present and the timestamp
parsed, as every routine past the load-time check assumes.  `rep` models
the optional `repeat` key (a number of days). -/
structure Event where
  title : String
  iso : Int
  location : Option String
  rep : Option Int
deriving Repr, DecidableEq

/-- `event_dict.get('repeat', False)` followed by Python's truthiness
test: a missing key and a stored `0` are both falsy, every other integer
is truthy.  The guard `if not event_repeats: continue` of the source is
`repeatOrZero e = 0` here. -/
def repeatOrZero (e : Event) : Int := e.rep.getD 0

/-- The pair `self.min_datetime` / `self.max_datetime` set by
`set_min_max_datetimes`. -/
structure DateWindow where
  min_datetime : Int
  max_datetime : Int
deriving Repr, DecidableEq

/-- `datetime.datetime(self.now.year, self.now.month, self.now.day)`:
`now` truncated to 00:00 of the same day.  On the linear timeline this is
the largest multiple of `secondsPerDay` not exceeding `now` (Lean's `%`
on `Int` is nonnegative for a positive modulus). -/
def startOfDay (t : Int) : Int := t - t % secondsPerDay

/-- Stated from the spec's words only, for comparison with the source's
`startOfDay`: "midnight(now) = now truncated to 00:00 of the same day",
i.e. flooring division to whole days. -/
def midnightSpec (t : Int) : Int := t / secondsPerDay * secondsPerDay

/-- `Diary.set_min_max_datetimes` (diary.py:272-298): for
`num_days >= 0` the window is `[now, start_of_today + (num_days+1) days]`,
otherwise `[start_of_today + num_days days, now]`.  The overflow guard of
the source cannot fire on unbounded integers and is not modelled. -/
def set_min_max_datetimes (now : Int) (num_days : Int) : DateWindow :=
  if 0 ≤ num_days then
    ⟨now, startOfDay now + (num_days + 1) * secondsPerDay⟩
  else
    ⟨startOfDay now + num_days * secondsPerDay, now⟩

/-- Numeric value of a list of decimal digit characters. -/
def digitsToNat (cs : List Char) : Nat :=
  cs.foldl (fun a c => 10 * a + (c.toNat - 48)) 0

/-- Python's `int(str)` on the strings this program passes to it: an
optional sign followed by one or more decimal digits (`None` on anything
else, modelling the `ValueError`).  Python additionally strips
surrounding whitespace and allows digit-group underscores; those inputs
do not occur in any claim and are not modelled. -/
def parseInt (s : String) : Option Int :=
  match s.toList with
  | [] => none
  | '-' :: rest =>
    if rest ≠ [] ∧ rest.all Char.isDigit then some (-(digitsToNat rest : Int)) else none
  | '+' :: rest =>
    if rest ≠ [] ∧ rest.all Char.isDigit then some ((digitsToNat rest : Int)) else none
  | cs =>
    if cs.all Char.isDigit then some ((digitsToNat cs : Int)) else none

/-- `Diary.return_int_or_false_from_str` (diary.py:641-653): `False`
(here `none`) when the string has no integer representation, or when
`must_be_positive` and the integer is below 1. -/
def return_int_or_false_from_str (s : String) (must_be_positive : Bool) : Option Int :=
  match parseInt s with
  | none => none
  | some n => if must_be_positive = true ∧ n < 1 then none else some n

/-- Stable insertion of an event into a list sorted by the `ISO` key;
together with `sort_events_list` this models Python's stable
`sorted(self.events, key=lambda k: k['ISO'])`. -/
def insert_event (e : Event) : List Event → List Event
  | [] => [e]
  | x :: xs => if x.iso < e.iso then x :: insert_event e xs else e :: x :: xs

/-- `Diary.sort_events_list` (diary.py:196-202). -/
def sort_events_list : List Event → List Event
  | [] => []
  | e :: es => insert_event e (sort_events_list es)

/-- `Diary.truncate_event_lists` (diary.py:337-373): split the event list
into the events strictly inside the window (first component,
`truncated_event_list`) and the rest (second component,
`excluded_event_list`), preserving order. -/
def truncate_event_lists (w : DateWindow) : List Event → List Event × List Event
  | [] => ([], [])
  | e :: es =>
    let p := truncate_event_lists w es
    if w.min_datetime < e.iso ∧ e.iso < w.max_datetime then (e :: p.1, p.2)
    else (p.1, e :: p.2)

/-- The `while date_to_check < self.max_datetime` loop of
`generate_repeat_events`: emit the candidate when
`self.min_datetime < date_to_check`, then advance by the step.  `fuel`
bounds the iterations; `none` models a run that never exits. -/
def repeats_loop (fuel : Nat) (step lo hi cand : Int) : Option (List Int) :=
  match fuel with
  | 0 => none
  | Nat.succ f =>
    if cand < hi then
      match repeats_loop f step lo hi (cand + step) with
      | none => none
      | some rest => some ((if lo < cand then [cand] else []) ++ rest)
    else some []

/-- `Diary.add_repeat_event` (diary.py:319-335): a copy of the event with
the new timestamp and the `repeat` key deleted. -/
def add_repeat_event (e : Event) (t : Int) : Event :=
  ⟨e.title, t, e.location, none⟩

/-- The body of `Diary.generate_repeat_events` (diary.py:300-317) for one
event: skip it unless `get('repeat', False)` is truthy, otherwise run the
candidate loop from `event_datetime + timedelta(days=repeat)` and turn
each emitted timestamp into a repeat copy.  `none` models the loop never
exiting (possible only for a negative stored `repeat`). -/
def generate_repeats_for (w : DateWindow) (e : Event) : Option (List Event) :=
  if repeatOrZero e = 0 then some []
  else
    match repeats_loop ((w.max_datetime - (e.iso + repeatOrZero e * secondsPerDay)).toNat + 1)
        (repeatOrZero e * secondsPerDay) w.min_datetime w.max_datetime
        (e.iso + repeatOrZero e * secondsPerDay) with
    | none => none
    | some ts => some (ts.map (add_repeat_event e))

/-- All repeat copies generated by the `for event_dict in self.events`
loop of `generate_repeat_events`, in loop order. -/
def generate_all (w : DateWindow) : List Event → Option (List Event)
  | [] => some []
  | e :: es =>
    match generate_repeats_for w e, generate_all w es with
    | some occs, some rest => some (occs ++ rest)
    | _, _ => none

/-- `Diary.generate_repeat_events` (diary.py:300-317): the repeat copies
are appended to `self.events`.  The Python loop also visits the copies it
appended while iterating, but every copy has its `repeat` key deleted and
is skipped by the truthiness guard, so iterating the original list is
equivalent. -/
def generate_repeat_events (w : DateWindow) (events : List Event) : Option (List Event) :=
  match generate_all w events with
  | none => none
  | some extra => some (events ++ extra)

/-- Outcome of `Diary.present_diary`. -/
inductive PresentResult where
  /-- `num_days` was falsy (`False` from the parse, or the integer `0`):
  the function returned before computing the window. -/
  | aborted : PresentResult
  /-- the repeat-generation loop never exits. -/
  | diverged : PresentResult
  /-- the events printed, in order. -/
  | shown : List Event → PresentResult
deriving Repr, DecidableEq

/-- `Diary.present_diary` (diary.py:230-270): parse the day count, return
at once if it is falsy, otherwise compute the window, generate repeat
copies, sort, truncate, and print the first (in-window) list. -/
def present_diary (now : Int) (events : List Event) (arg : String) : PresentResult :=
  match return_int_or_false_from_str arg false with
  | none => PresentResult.aborted
  | some n =>
    if n = 0 then PresentResult.aborted
    else
      match generate_repeat_events (set_min_max_datetimes now n) events with
      | none => PresentResult.diverged
      | some evs =>
        PresentResult.shown
          (truncate_event_lists (set_min_max_datetimes now n) (sort_events_list evs)).1

/-- The `while next_repeat_datetime < self.max_datetime` loop of
`add_new_repeat_for_event_to_be_deleted_if_user_desires`: advance by
the step until the candidate is no longer below the bound, then return
it.  `fuel` bounds the iterations; `none` models a run that never
exits. -/
def next_repeat_loop (fuel : Nat) (step hi cand : Int) : Option Int :=
  match fuel with
  | 0 => none
  | Nat.succ f =>
    if cand < hi then next_repeat_loop f step hi (cand + step) else some cand

/-- The first repeat timestamp at or after `self.max_datetime`, started
from `event_datetime + timedelta(event_repeats)` (diary.py:669-672). -/
def next_repeat_datetime (w : DateWindow) (e : Event) : Option Int :=
  next_repeat_loop ((w.max_datetime - (e.iso + repeatOrZero e * secondsPerDay)).toNat + 1)
    (repeatOrZero e * secondsPerDay) w.max_datetime
    (e.iso + repeatOrZero e * secondsPerDay)

/-- The continuation record of diary.py:681-683: `dict(event_dict)` with
the new `ISO` string and the `repeat` key retained. -/
def continuation_event (e : Event) (t : Int) : Event :=
  ⟨e.title, t, e.location, e.rep⟩

/-- `Diary.add_new_repeat_for_event_to_be_deleted_if_user_desires`
(diary.py:655-690): for each event of `self.events_to_delete` whose
`repeat` value is truthy, ask the user (`ans`); on yes, append the
continuation record to `self.events` (the kept list).  `none` models the
candidate loop never exiting. -/
def add_new_repeat_for_event_to_be_deleted_if_user_desires
    (w : DateWindow) : List Event → List Event → (Event → Bool) → Option (List Event)
  | [], kept, _ => some kept
  | e :: rest, kept, ans =>
    if repeatOrZero e = 0 then
      add_new_repeat_for_event_to_be_deleted_if_user_desires w rest kept ans
    else
      match next_repeat_datetime w e with
      | none => none
      | some t =>
        if ans e then
          add_new_repeat_for_event_to_be_deleted_if_user_desires w rest
            (kept ++ [continuation_event e t]) ans
        else
          add_new_repeat_for_event_to_be_deleted_if_user_desires w rest kept ans

/-- Observable outcome of `Diary.delete_events`. -/
structure DeleteOutcome where
  /-- `self.events_to_delete` after truncation (`[]` when the parse was
  falsy and the function returned before truncating). -/
  to_delete : List Event
  /-- whether `'No events to remove.'` was printed. -/
  reported_nothing : Bool
  /-- whether the `user_wants_removal` confirmation prompt was shown. -/
  prompted : Bool
  /-- the list written to the events file, when a write happened. -/
  written : Option (List Event)
deriving Repr, DecidableEq

/-- `Diary.delete_events` (diary.py:595-631): parse the day count and
return at once if it is falsy; sort; truncate with `delete=True` (the
in-window events become `self.events_to_delete`, the rest stay in
`self.events`); if nothing is to be deleted, report that and stop;
otherwise resolve continuations, show the confirmation prompt
(`user_wants_removal`, diary.py:692-699), and write `self.events` back
only on a yes.  `none` models a continuation loop never exiting. -/
def delete_events (now : Int) (events : List Event) (arg : String)
    (ans : Event → Bool) (confirm : Bool) : Option DeleteOutcome :=
  match return_int_or_false_from_str arg false with
  | none => some ⟨[], false, false, none⟩
  | some n =>
    if n = 0 then some ⟨[], false, false, none⟩
    else
      let p := truncate_event_lists (set_min_max_datetimes now n) (sort_events_list events)
      if p.1 = [] then some ⟨[], true, false, none⟩
      else
        match add_new_repeat_for_event_to_be_deleted_if_user_desires
            (set_min_max_datetimes now n) p.1 p.2 ans with
        | none => none
        | some kept =>
          some ⟨p.1, false, true, if confirm then some kept else none⟩

/-- A stored record as deserialised from the JSON document, before any
validation: both required keys may be absent and the timestamp is still
the stored string. -/
structure RawEvent where
  title : Option String
  iso : Option String
  location : Option String
  rep : Option Int
deriving Repr, DecidableEq

/-- `Diary.check_event_keys` (diary.py:183-194): every record must have
the keys of `REQUIRED_KEYS = ['title', 'ISO']`. -/
def check_event_keys (events : List RawEvent) : Bool :=
  events.all fun e => e.title.isSome && e.iso.isSome

/-- The load-time gate of `Diary.__init__` (diary.py:135-155): the chosen
operation runs, on the loaded list unchanged, only when
`check_event_keys` passes; otherwise the constructor returns before
dispatching, so no operation and in particular no write happens
(`none`). -/
def diary_init (events : List RawEvent) : Option (List RawEvent) :=
  if check_event_keys events then some events else none

/-- Parse of the `HH:MM` or `HH:MM:SS` tail accepted by
`datetime.fromisoformat`. -/
def parse_time_part : List Char → Option (Nat × Nat × Nat)
  | [h1, h2, ':', m1, m2] =>
    if h1.isDigit ∧ h2.isDigit ∧ m1.isDigit ∧ m2.isDigit then
      if 10 * (h1.toNat - 48) + (h2.toNat - 48) ≤ 23 ∧
          10 * (m1.toNat - 48) + (m2.toNat - 48) ≤ 59 then
        some (10 * (h1.toNat - 48) + (h2.toNat - 48),
          10 * (m1.toNat - 48) + (m2.toNat - 48), 0)
      else none
    else none
  | [h1, h2, ':', m1, m2, ':', s1, s2] =>
    if h1.isDigit ∧ h2.isDigit ∧ m1.isDigit ∧ m2.isDigit ∧ s1.isDigit ∧ s2.isDigit then
      if 10 * (h1.toNat - 48) + (h2.toNat - 48) ≤ 23 ∧
          10 * (m1.toNat - 48) + (m2.toNat - 48) ≤ 59 ∧
          10 * (s1.toNat - 48) + (s2.toNat - 48) ≤ 59 then
        some (10 * (h1.toNat - 48) + (h2.toNat - 48),
          10 * (m1.toNat - 48) + (m2.toNat - 48),
          10 * (s1.toNat - 48) + (s2.toNat - 48))
      else none
    else none
  | _ => none

/-- Python's `datetime.datetime.fromisoformat` on the strings this
program stores: `YYYY-MM-DD`, optionally followed by one separator
character (any character, as in CPython) and `HH:MM[:SS]`, yielding the
parsed calendar fields.  Day-of-month validation is simplified to the
range 1..31 and fractional seconds are not modelled; neither refinement
is exercised by any claim. -/
def fromisoformat (s : String) : Option (Nat × Nat × Nat × Nat × Nat × Nat) :=
  match s.toList with
  | y1 :: y2 :: y3 :: y4 :: '-' :: m1 :: m2 :: '-' :: d1 :: d2 :: rest =>
    if y1.isDigit ∧ y2.isDigit ∧ y3.isDigit ∧ y4.isDigit ∧
        m1.isDigit ∧ m2.isDigit ∧ d1.isDigit ∧ d2.isDigit then
      if 1 ≤ 10 * (m1.toNat - 48) + (m2.toNat - 48) ∧
          10 * (m1.toNat - 48) + (m2.toNat - 48) ≤ 12 ∧
          1 ≤ 10 * (d1.toNat - 48) + (d2.toNat - 48) ∧
          10 * (d1.toNat - 48) + (d2.toNat - 48) ≤ 31 then
        match rest with
        | [] =>
          some (digitsToNat [y1, y2, y3, y4],
            10 * (m1.toNat - 48) + (m2.toNat - 48),
            10 * (d1.toNat - 48) + (d2.toNat - 48), 0, 0, 0)
        | _ :: timecs =>
          match parse_time_part timecs with
          | some (h, mi, sec) =>
            some (digitsToNat [y1, y2, y3, y4],
              10 * (m1.toNat - 48) + (m2.toNat - 48),
              10 * (d1.toNat - 48) + (d2.toNat - 48), h, mi, sec)
          | none => none
      else none
    else none
  | _ => none

/-- `Diary.get_datetime_from_event_dict` (diary.py:375-391) on a raw
record: `none` models the `False` returned when the `ISO` value is
missing or malformed. -/
def get_datetime_from_event_dict (e : RawEvent) :
    Option (Nat × Nat × Nat × Nat × Nat × Nat) :=
  match e.iso with
  | none => none
  | some s => fromisoformat s

end Diary

namespace Diary

/-! ## Helper lemmas -/

theorem startOfDay_eq_midnightSpec (t : Int) : startOfDay t = midnightSpec t := by
  unfold startOfDay midnightSpec secondsPerDay
  omega

theorem mem_insert_event (a e : Event) (l : List Event) :
    a ∈ insert_event e l ↔ a = e ∨ a ∈ l := by
  induction l with
  | nil => simp [insert_event]
  | cons x xs ih =>
    by_cases h : x.iso < e.iso
    · simp only [insert_event, if_pos h, List.mem_cons, ih]
      tauto
    · simp only [insert_event, if_neg h, List.mem_cons]

theorem mem_sort_events_list (a : Event) (l : List Event) :
    a ∈ sort_events_list l ↔ a ∈ l := by
  induction l with
  | nil => simp [sort_events_list]
  | cons e es ih =>
    simp only [sort_events_list, mem_insert_event, ih, List.mem_cons]

theorem mem_truncate_fst (w : DateWindow) (l : List Event) (e : Event) :
    e ∈ (truncate_event_lists w l).1 ↔
      e ∈ l ∧ w.min_datetime < e.iso ∧ e.iso < w.max_datetime := by
  induction l with
  | nil => simp [truncate_event_lists]
  | cons x xs ih =>
    by_cases h : w.min_datetime < x.iso ∧ x.iso < w.max_datetime
    · simp only [truncate_event_lists, if_pos h, List.mem_cons, ih]
      constructor
      · rintro (rfl | ⟨hm, hw⟩)
        · exact ⟨Or.inl rfl, h⟩
        · exact ⟨Or.inr hm, hw⟩
      · rintro ⟨rfl | hm, hw⟩
        · exact Or.inl rfl
        · exact Or.inr ⟨hm, hw⟩
    · simp only [truncate_event_lists, if_neg h, List.mem_cons, ih]
      constructor
      · rintro ⟨hm, hw⟩
        exact ⟨Or.inr hm, hw⟩
      · rintro ⟨rfl | hm, hw⟩
        · exact absurd hw h
        · exact ⟨hm, hw⟩

theorem mem_truncate_snd (w : DateWindow) (l : List Event) (e : Event) :
    e ∈ (truncate_event_lists w l).2 ↔
      e ∈ l ∧ ¬(w.min_datetime < e.iso ∧ e.iso < w.max_datetime) := by
  induction l with
  | nil => simp [truncate_event_lists]
  | cons x xs ih =>
    by_cases h : w.min_datetime < x.iso ∧ x.iso < w.max_datetime
    · simp only [truncate_event_lists, if_pos h, List.mem_cons, ih]
      constructor
      · rintro ⟨hm, hw⟩
        exact ⟨Or.inr hm, hw⟩
      · rintro ⟨rfl | hm, hw⟩
        · exact absurd h hw
        · exact ⟨hm, hw⟩
    · simp only [truncate_event_lists, if_neg h, List.mem_cons, ih]
      constructor
      · rintro (rfl | ⟨hm, hw⟩)
        · exact ⟨Or.inl rfl, h⟩
        · exact ⟨Or.inr hm, hw⟩
      · rintro ⟨rfl | hm, hw⟩
        · exact Or.inl rfl
        · exact Or.inr ⟨hm, hw⟩

theorem repeats_loop_mem : ∀ (fuel : Nat) (step lo hi cand : Int) (l : List Int) (t : Int),
    repeats_loop fuel step lo hi cand = some l → t ∈ l →
    lo < t ∧ t < hi ∧ ∃ j : Nat, t = cand + (j : Int) * step := by
  intro fuel
  induction fuel with
  | zero =>
    intro step lo hi cand l t h
    simp [repeats_loop] at h
  | succ f ih =>
    intro step lo hi cand l t h ht
    rw [repeats_loop] at h
    by_cases hc : cand < hi
    · rw [if_pos hc] at h
      cases hrec : repeats_loop f step lo hi (cand + step) with
      | none => rw [hrec] at h; exact absurd h (by simp)
      | some rest =>
        rw [hrec] at h
        have hl : (if lo < cand then [cand] else []) ++ rest = l := by
          exact Option.some.inj h
        subst hl
        rcases List.mem_append.mp ht with h1 | h2
        · by_cases hlo : lo < cand
          · rw [if_pos hlo] at h1
            have : t = cand := by simpa using h1
            subst this
            exact ⟨hlo, hc, 0, by simp⟩
          · rw [if_neg hlo] at h1
            simp at h1
        · obtain ⟨h1, h2', j, hj⟩ := ih step lo hi (cand + step) rest t hrec h2
          refine ⟨h1, h2', j + 1, ?_⟩
          rw [hj]
          push_cast
          ring
    · rw [if_neg hc] at h
      have hl : ([] : List Int) = l := Option.some.inj h
      subst hl
      simp at ht

theorem repeats_loop_isSome : ∀ (fuel : Nat) (step lo hi cand : Int), 0 < step →
    (hi - cand).toNat < fuel → (repeats_loop fuel step lo hi cand).isSome := by
  intro fuel
  induction fuel with
  | zero =>
    intro step lo hi cand _ h
    omega
  | succ f ih =>
    intro step lo hi cand hs hf
    rw [repeats_loop]
    by_cases hc : cand < hi
    · have hlt : (hi - (cand + step)).toNat < f := by omega
      have h2 := ih step lo hi (cand + step) hs hlt
      rw [if_pos hc]
      cases hrec : repeats_loop f step lo hi (cand + step) with
      | none => rw [hrec] at h2; simp at h2
      | some rest => simp
    · rw [if_neg hc]
      simp

theorem next_repeat_loop_eq_some : ∀ (fuel : Nat) (step hi cand t : Int),
    next_repeat_loop fuel step hi cand = some t →
    hi ≤ t ∧ ∃ j : Nat, t = cand + (j : Int) * step := by
  intro fuel
  induction fuel with
  | zero =>
    intro step hi cand t h
    simp [next_repeat_loop] at h
  | succ f ih =>
    intro step hi cand t h
    rw [next_repeat_loop] at h
    by_cases hc : cand < hi
    · rw [if_pos hc] at h
      obtain ⟨h1, j, hj⟩ := ih step hi (cand + step) t h
      refine ⟨h1, j + 1, ?_⟩
      rw [hj]
      push_cast
      ring
    · rw [if_neg hc] at h
      have : cand = t := Option.some.inj h
      subst this
      exact ⟨le_of_not_lt hc, 0, by simp⟩

theorem next_repeat_loop_isSome : ∀ (fuel : Nat) (step hi cand : Int), 0 < step →
    (hi - cand).toNat < fuel → (next_repeat_loop fuel step hi cand).isSome := by
  intro fuel
  induction fuel with
  | zero =>
    intro step hi cand _ h
    omega
  | succ f ih =>
    intro step hi cand hs hf
    rw [next_repeat_loop]
    by_cases hc : cand < hi
    · rw [if_pos hc]
      exact ih step hi (cand + step) hs (by omega)
    · rw [if_neg hc]
      simp

theorem secondsPerDay_pos : (0 : Int) < secondsPerDay := by decide

theorem repeatOrZero_eq_some (e : Event) (h : repeatOrZero e ≠ 0) :
    e.rep = some (repeatOrZero e) := by
  cases he : e.rep with
  | none => exact absurd (by simp [repeatOrZero, he]) h
  | some r => simp [repeatOrZero, he]

end Diary

namespace Diary

theorem generate_repeats_for_isSome (w : DateWindow) (e : Event) (R : Int)
    (hR : e.rep = some R) (hpos : 0 < R) :
    ∃ occs, generate_repeats_for w e = some occs := by
  have hrz : repeatOrZero e = R := by simp [repeatOrZero, hR]
  have hne : ¬repeatOrZero e = 0 := by rw [hrz]; exact ne_of_gt hpos
  have hstep : 0 < repeatOrZero e * secondsPerDay := by
    rw [hrz]
    exact mul_pos hpos secondsPerDay_pos
  have hs := repeats_loop_isSome
    ((w.max_datetime - (e.iso + repeatOrZero e * secondsPerDay)).toNat + 1)
    (repeatOrZero e * secondsPerDay) w.min_datetime w.max_datetime
    (e.iso + repeatOrZero e * secondsPerDay) hstep (Nat.lt_succ_self _)
  rw [generate_repeats_for, if_neg hne]
  cases hloop : repeats_loop
      ((w.max_datetime - (e.iso + repeatOrZero e * secondsPerDay)).toNat + 1)
      (repeatOrZero e * secondsPerDay) w.min_datetime w.max_datetime
      (e.iso + repeatOrZero e * secondsPerDay) with
  | none => rw [hloop] at hs; simp at hs
  | some ts => exact ⟨ts.map (add_repeat_event e), rfl⟩

theorem generate_repeats_for_mem (w : DateWindow) (e : Event) (R : Int) (occs : List Event)
    (hR : e.rep = some R) (hRne : R ≠ 0)
    (h : generate_repeats_for w e = some occs) (o : Event) (ho : o ∈ occs) :
    o.title = e.title ∧ o.location = e.location ∧ o.rep = none ∧
    w.min_datetime < o.iso ∧ o.iso < w.max_datetime ∧
    ∃ k : Nat, 1 ≤ k ∧ o.iso = e.iso + (k : Int) * (R * secondsPerDay) := by
  have hrz : repeatOrZero e = R := by simp [repeatOrZero, hR]
  have hne : ¬repeatOrZero e = 0 := by rw [hrz]; exact hRne
  rw [generate_repeats_for, if_neg hne] at h
  cases hloop : repeats_loop
      ((w.max_datetime - (e.iso + repeatOrZero e * secondsPerDay)).toNat + 1)
      (repeatOrZero e * secondsPerDay) w.min_datetime w.max_datetime
      (e.iso + repeatOrZero e * secondsPerDay) with
  | none => rw [hloop] at h; simp at h
  | some ts =>
    rw [hloop] at h
    have hocc : ts.map (add_repeat_event e) = occs := Option.some.inj h
    subst hocc
    obtain ⟨t, ht, rfl⟩ := List.mem_map.mp ho
    obtain ⟨h1, h2, j, hj⟩ := repeats_loop_mem _ _ _ _ _ _ _ hloop ht
    refine ⟨rfl, rfl, rfl, h1, h2, j + 1, by omega, ?_⟩
    show t = e.iso + ((j : Int) + 1) * (R * secondsPerDay)
    rw [hj, hrz]
    ring

theorem generate_repeat_events_eq_append (w : DateWindow) (events evs : List Event)
    (h : generate_repeat_events w events = some evs) :
    ∃ extra, evs = events ++ extra := by
  rw [generate_repeat_events] at h
  cases hall : generate_all w events with
  | none => rw [hall] at h; simp at h
  | some extra =>
    rw [hall] at h
    exact ⟨extra, (Option.some.inj h).symm⟩

theorem continuations_shape : ∀ (td : List Event) (w : DateWindow) (kept : List Event)
    (ans : Event → Bool) (out : List Event),
    add_new_repeat_for_event_to_be_deleted_if_user_desires w td kept ans = some out →
    ∃ extras, out = kept ++ extras ∧ ∀ x ∈ extras, ∃ e ∈ td, ∃ R : Int,
      e.rep = some R ∧ R ≠ 0 ∧ ans e = true ∧
      x.title = e.title ∧ x.location = e.location ∧ x.rep = e.rep ∧
      w.max_datetime ≤ x.iso ∧
      ∃ k : Nat, 1 ≤ k ∧ x.iso = e.iso + (k : Int) * (R * secondsPerDay) := by
  intro td
  induction td with
  | nil =>
    intro w kept ans out h
    rw [add_new_repeat_for_event_to_be_deleted_if_user_desires] at h
    refine ⟨[], ?_, by simp⟩
    rw [← Option.some.inj h]
    simp
  | cons e rest ih =>
    intro w kept ans out h
    rw [add_new_repeat_for_event_to_be_deleted_if_user_desires] at h
    by_cases h0 : repeatOrZero e = 0
    · rw [if_pos h0] at h
      obtain ⟨extras, h1, h2⟩ := ih w kept ans out h
      refine ⟨extras, h1, fun x hx => ?_⟩
      obtain ⟨e', he', hrest⟩ := h2 x hx
      exact ⟨e', List.mem_cons_of_mem _ he', hrest⟩
    · rw [if_neg h0] at h
      cases hnext : next_repeat_datetime w e with
      | none => rw [hnext] at h; simp at h
      | some t =>
        rw [hnext] at h
        dsimp only at h
        by_cases hans : ans e = true
        · rw [if_pos hans] at h
          obtain ⟨extras, h1, h2⟩ := ih w (kept ++ [continuation_event e t]) ans out h
          refine ⟨continuation_event e t :: extras, by simp [h1], fun x hx => ?_⟩
          rcases List.mem_cons.mp hx with rfl | hx'
          · unfold next_repeat_datetime at hnext
            obtain ⟨hge, j, hj⟩ := next_repeat_loop_eq_some _ _ _ _ _ hnext
            refine ⟨e, List.mem_cons_self _ _, repeatOrZero e, repeatOrZero_eq_some e h0,
              h0, hans, rfl, rfl, rfl, hge, j + 1, by omega, ?_⟩
            show t = e.iso + ((j : Int) + 1) * (repeatOrZero e * secondsPerDay)
            rw [hj]
            ring
          · obtain ⟨e', he', hrest⟩ := h2 x hx'
            exact ⟨e', List.mem_cons_of_mem _ he', hrest⟩
        · rw [if_neg hans] at h
          obtain ⟨extras, h1, h2⟩ := ih w kept ans out h
          refine ⟨extras, h1, fun x hx => ?_⟩
          obtain ⟨e', he', hrest⟩ := h2 x hx
          exact ⟨e', List.mem_cons_of_mem _ he', hrest⟩

theorem continuations_total : ∀ (td : List Event) (w : DateWindow) (kept : List Event)
    (ans : Event → Bool), (∀ e ∈ td, 0 ≤ repeatOrZero e) →
    ∃ out, add_new_repeat_for_event_to_be_deleted_if_user_desires w td kept ans = some out := by
  intro td
  induction td with
  | nil =>
    intro w kept ans _
    exact ⟨kept, rfl⟩
  | cons e rest ih =>
    intro w kept ans hnn
    by_cases h0 : repeatOrZero e = 0
    · simp only [add_new_repeat_for_event_to_be_deleted_if_user_desires, if_pos h0]
      exact ih w kept ans fun x hx => hnn x (List.mem_cons_of_mem _ hx)
    · have hpos : 0 < repeatOrZero e :=
        lt_of_le_of_ne (hnn e (List.mem_cons_self _ _)) (Ne.symm h0)
      have hstep : 0 < repeatOrZero e * secondsPerDay := mul_pos hpos secondsPerDay_pos
      have hs := next_repeat_loop_isSome
        ((w.max_datetime - (e.iso + repeatOrZero e * secondsPerDay)).toNat + 1)
        (repeatOrZero e * secondsPerDay) w.max_datetime
        (e.iso + repeatOrZero e * secondsPerDay) hstep (Nat.lt_succ_self _)
      cases hnext : next_repeat_datetime w e with
      | none =>
        unfold next_repeat_datetime at hnext
        rw [hnext] at hs
        simp at hs
      | some t =>
        simp only [add_new_repeat_for_event_to_be_deleted_if_user_desires, if_neg h0, hnext]
        by_cases hans : ans e = true
        · rw [if_pos hans]
          exact ih w (kept ++ [continuation_event e t]) ans
            fun x hx => hnn x (List.mem_cons_of_mem _ hx)
        · rw [if_neg hans]
          exact ih w kept ans fun x hx => hnn x (List.mem_cons_of_mem _ hx)

end Diary

namespace Diary

theorem delete_events_eq (now : Int) (events : List Event) (arg : String)
    (ans : Event → Bool) (confirm : Bool) (n : Int)
    (hp : return_int_or_false_from_str arg false = some n) (hn : ¬n = 0) :
    delete_events now events arg ans confirm =
      (if (truncate_event_lists (set_min_max_datetimes now n) (sort_events_list events)).1 = []
        then some ⟨[], true, false, none⟩
        else
          match add_new_repeat_for_event_to_be_deleted_if_user_desires
              (set_min_max_datetimes now n)
              (truncate_event_lists (set_min_max_datetimes now n) (sort_events_list events)).1
              (truncate_event_lists (set_min_max_datetimes now n) (sort_events_list events)).2
              ans with
          | none => none
          | some kept =>
            some ⟨(truncate_event_lists (set_min_max_datetimes now n)
                (sort_events_list events)).1, false, true,
              if confirm then some kept else none⟩) := by
  simp only [delete_events, hp]
  rw [if_neg hn]

/-! ## Claim theorems -/

/-- Claim C1 (code bug): the spec and the program's own usage text
("0 for events occurring today", and the dedicated `num_days == 0`
summary phrase in `present_diary`) require a day count of `0` to
proceed, but `if not num_days: return` treats the parsed integer `0` as
falsy, so Present and Delete silently abort on the valid argument "0"
while other valid integers proceed and non-integers abort. -/
theorem c1_zero_day_count_is_silently_dropped :
    return_int_or_false_from_str "0" false = some 0 ∧
    present_diary 0 [⟨"standup", 3600, none, none⟩] "0" = PresentResult.aborted ∧
    present_diary 0 [⟨"standup", 3600, none, none⟩] "1" =
      PresentResult.shown [⟨"standup", 3600, none, none⟩] ∧
    delete_events 0 [⟨"standup", 3600, none, none⟩] "0" (fun _ => true) true =
      some ⟨[], false, false, none⟩ ∧
    present_diary 0 [⟨"standup", 3600, none, none⟩] "abc" = PresentResult.aborted := by
  exact ⟨rfl, rfl, rfl, rfl, rfl⟩

/-- Claim C2: for every `now` and integer `num_days`, the window is
`(now, midnight(now) + (num_days+1) days)` when `num_days ≥ 0` and
`(midnight(now) + num_days days, now)` when `num_days < 0`, where
`midnight` truncates to 00:00 of the same day. -/
theorem c2_window_bounds (now num_days : Int) :
    set_min_max_datetimes now num_days =
      if 0 ≤ num_days then
        ⟨now, midnightSpec now + (num_days + 1) * secondsPerDay⟩
      else
        ⟨midnightSpec now + num_days * secondsPerDay, now⟩ := by
  simp only [set_min_max_datetimes, startOfDay_eq_midnightSpec]

/-- Claim C3: a record is classified in-window iff
`lower_bound < timestamp < upper_bound` with strict inequalities, and a
record whose timestamp equals either bound is classified as excluded. -/
theorem c3_strict_window_membership (w : DateWindow) (es : List Event) (e : Event) :
    (e ∈ (truncate_event_lists w es).1 ↔
      e ∈ es ∧ w.min_datetime < e.iso ∧ e.iso < w.max_datetime) ∧
    (e ∈ es → (e.iso = w.min_datetime ∨ e.iso = w.max_datetime) →
      e ∈ (truncate_event_lists w es).2) := by
  refine ⟨mem_truncate_fst w es e, fun hm hb => ?_⟩
  rw [mem_truncate_snd]
  refine ⟨hm, ?_⟩
  rcases hb with h | h <;> rw [h] <;> omega

/-- Claim C3 witness: a boundary-equal event is excluded. -/
theorem c3_strict_window_membership_witness :
    (⟨"x", (0 : Int), none, none⟩ : Event) ∈
      (truncate_event_lists ⟨0, 100⟩ [⟨"x", 0, none, none⟩]).2 :=
  (c3_strict_window_membership ⟨0, 100⟩ [⟨"x", 0, none, none⟩] ⟨"x", 0, none, none⟩).2
    (by simp) (Or.inl rfl)

/-- Claim C4: for a base event with repeat interval `R > 0`, every
emitted occurrence is a copy with no recurrence field whose timestamp is
`base + k*R` days for some `k ≥ 1` (never the base timestamp) and lies
strictly inside the window, and the generated list extends the original
event list without touching the originals. -/
theorem c4_repeat_occurrences (w : DateWindow) (e : Event) (R : Int)
    (hR : e.rep = some R) (hpos : 0 < R) :
    (∀ occs, generate_repeats_for w e = some occs → ∀ o ∈ occs,
      o.title = e.title ∧ o.location = e.location ∧ o.rep = none ∧
      w.min_datetime < o.iso ∧ o.iso < w.max_datetime ∧ o.iso ≠ e.iso ∧
      ∃ k : Nat, 1 ≤ k ∧ o.iso = e.iso + (k : Int) * (R * secondsPerDay)) ∧
    (∀ events evs, generate_repeat_events w events = some evs →
      ∃ extra, evs = events ++ extra) := by
  constructor
  · intro occs h o ho
    obtain ⟨h1, h2, h3, h4, h5, k, hk, hiso⟩ :=
      generate_repeats_for_mem w e R occs hR (ne_of_gt hpos) h o ho
    refine ⟨h1, h2, h3, h4, h5, ?_, k, hk, hiso⟩
    have hkpos : 0 < (k : Int) := by exact_mod_cast hk
    have hsp : 0 < (k : Int) * (R * secondsPerDay) :=
      mul_pos hkpos (mul_pos hpos secondsPerDay_pos)
    rw [hiso]
    omega
  · intro events evs h
    exact generate_repeat_events_eq_append w events evs h

/-- Claim C4 witness: the first occurrence of a 2-day repeat based at
01:00 of day 0, presented over a week, is `base + 1*(2 days)`. -/
theorem c4_repeat_occurrences_witness :
    ∃ k : Nat, 1 ≤ k ∧ (176400 : Int) = 3600 + (k : Int) * (2 * secondsPerDay) := by
  have h := (c4_repeat_occurrences (set_min_max_datetimes 0 7)
      ⟨"gym", 3600, none, some 2⟩ 2 rfl (by decide)).1
    [⟨"gym", 176400, none, none⟩, ⟨"gym", 349200, none, none⟩, ⟨"gym", 522000, none, none⟩]
    rfl ⟨"gym", 176400, none, none⟩ (by simp)
  exact h.2.2.2.2.2.2

/-- Claim C9: for a repeat interval `R > 0` the generation loop
terminates (the fuelled loop, whose exhaustion models divergence,
returns a value). -/
theorem c9_expansion_terminates (w : DateWindow) (e : Event) (R : Int)
    (hR : e.rep = some R) (hpos : 0 < R) :
    ∃ occs, generate_repeats_for w e = some occs :=
  generate_repeats_for_isSome w e R hR hpos

/-- Claim C9 witness. -/
theorem c9_expansion_terminates_witness :
    ∃ occs, generate_repeats_for (set_min_max_datetimes 0 7)
      ⟨"gym", 3600, none, some 2⟩ = some occs :=
  c9_expansion_terminates (set_min_max_datetimes 0 7) ⟨"gym", 3600, none, some 2⟩ 2
    rfl (by decide)

/-- Claim C10: a stored record with `repeat = 0` is skipped entirely by
recurrence expansion — zero occurrences, the generation loop is never
entered (the truthiness guard fires) — exactly as if the record had no
repeat field. -/
theorem c10_zero_repeat_skipped (w : DateWindow) (title : String) (iso : Int)
    (location : Option String) :
    generate_repeats_for w ⟨title, iso, location, some 0⟩ = some [] ∧
    generate_repeats_for w ⟨title, iso, location, some 0⟩ =
      generate_repeats_for w ⟨title, iso, location, none⟩ := by
  exact ⟨rfl, rfl⟩

end Diary

namespace Diary

/-- Claim C5 counterexample: a daily event at 00:00 of day 1, deleted
with day count 1 (window upper bound = 00:00 of day 2), continues — with
the user's consent — at exactly the upper bound, not strictly after it
(`while next_repeat_datetime < self.max_datetime` exits on equality). -/
theorem c5_counterexample_continuation_at_upper_bound :
    delete_events 0 [⟨"gym", 86400, none, some 1⟩] "1" (fun _ => true) true =
      some ⟨[⟨"gym", 86400, none, some 1⟩], false, true,
        some [⟨"gym", 172800, none, some 1⟩]⟩ ∧
    ¬ (set_min_max_datetimes 0 1).max_datetime < (172800 : Int) := by
  exact ⟨rfl, by decide⟩

/-- Claim C5 as amended: every record the continuation step appends to
the kept set is a copy of an in-candidate-set repeating event with the
recurrence field retained, its timestamp is `base + k*R` days for some
`k ≥ 1`, and that timestamp is at or after `upper_bound` (equality is
possible, so not always strictly after). -/
theorem c5_continuation_form (w : DateWindow) (to_del kept : List Event)
    (ans : Event → Bool) (out : List Event)
    (h : add_new_repeat_for_event_to_be_deleted_if_user_desires w to_del kept ans
      = some out) :
    ∃ extras, out = kept ++ extras ∧ ∀ x ∈ extras, ∃ e ∈ to_del, ∃ R : Int,
      e.rep = some R ∧ R ≠ 0 ∧ ans e = true ∧
      x.title = e.title ∧ x.location = e.location ∧ x.rep = e.rep ∧
      w.max_datetime ≤ x.iso ∧
      ∃ k : Nat, 1 ≤ k ∧ x.iso = e.iso + (k : Int) * (R * secondsPerDay) :=
  continuations_shape to_del w kept ans out h

/-- Claim C5 witness: in the counterexample run the appended continuation
is indeed at or after the upper bound. -/
theorem c5_continuation_form_witness :
    (set_min_max_datetimes 0 1).max_datetime ≤ (172800 : Int) := by
  obtain ⟨extras, he, hall⟩ := c5_continuation_form (set_min_max_datetimes 0 1)
    [⟨"gym", 86400, none, some 1⟩] [] (fun _ => true)
    [⟨"gym", 172800, none, some 1⟩] rfl
  have hx : (⟨"gym", (172800 : Int), none, some 1⟩ : Event) ∈ extras := by
    rw [List.nil_append] at he
    rw [← he]
    simp
  obtain ⟨e, he', R, hR, hRne, hans, ht, hl, hrep, hge, k, hk, hiso⟩ := hall _ hx
  exact hge

/-- Claim C6: for a valid non-falsy day count, Delete's candidate set
consists only of originally stored records whose timestamps lie strictly
inside the window (no synthesized occurrences), and every stored record
outside the window is present in any list that gets written. -/
theorem c6_delete_frame (now : Int) (events : List Event) (arg : String)
    (ans : Event → Bool) (confirm : Bool) (n : Int) (out : DeleteOutcome)
    (hp : return_int_or_false_from_str arg false = some n) (hn : ¬n = 0)
    (h : delete_events now events arg ans confirm = some out) :
    (∀ e ∈ out.to_delete, e ∈ events ∧
      (set_min_max_datetimes now n).min_datetime < e.iso ∧
      e.iso < (set_min_max_datetimes now n).max_datetime) ∧
    (∀ e ∈ events,
      ¬((set_min_max_datetimes now n).min_datetime < e.iso ∧
        e.iso < (set_min_max_datetimes now n).max_datetime) →
      ∀ k, out.written = some k → e ∈ k) := by
  rw [delete_events_eq now events arg ans confirm n hp hn] at h
  by_cases hemp :
      (truncate_event_lists (set_min_max_datetimes now n) (sort_events_list events)).1 = []
  · rw [if_pos hemp] at h
    have hout : (⟨[], true, false, none⟩ : DeleteOutcome) = out := Option.some.inj h
    constructor
    · intro e he
      rw [← hout] at he
      simp at he
    · intro e he hw k hk
      rw [← hout] at hk
      simp at hk
  · rw [if_neg hemp] at h
    cases hcont : add_new_repeat_for_event_to_be_deleted_if_user_desires
        (set_min_max_datetimes now n)
        (truncate_event_lists (set_min_max_datetimes now n) (sort_events_list events)).1
        (truncate_event_lists (set_min_max_datetimes now n) (sort_events_list events)).2
        ans with
    | none => rw [hcont] at h; simp at h
    | some kept2 =>
      rw [hcont] at h
      dsimp only at h
      have hout := Option.some.inj h
      constructor
      · intro e he
        rw [← hout] at he
        dsimp only at he
        have hmem := (mem_truncate_fst _ _ _).mp he
        exact ⟨(mem_sort_events_list _ _).mp hmem.1, hmem.2⟩
      · intro e he hw k hk
        rw [← hout] at hk
        dsimp only at hk
        have hkept : e ∈ (truncate_event_lists (set_min_max_datetimes now n)
            (sort_events_list events)).2 :=
          (mem_truncate_snd _ _ _).mpr ⟨(mem_sort_events_list _ _).mpr he, hw⟩
        obtain ⟨extras, hsh, _⟩ := continuations_shape _ _ _ _ _ hcont
        have hin2 : e ∈ kept2 := by
          rw [hsh]
          exact List.mem_append_left _ hkept
        cases confirm with
        | false => simp at hk
        | true =>
          rw [if_pos rfl] at hk
          rw [← Option.some.inj hk]
          exact hin2

/-- Claim C6 witness: with one event inside and one outside the window,
the in-window event is a stored in-window candidate. -/
theorem c6_delete_frame_witness :
    (⟨"a", (3600 : Int), none, none⟩ : Event) ∈
      [(⟨"a", (3600 : Int), none, none⟩ : Event), ⟨"b", 300000, none, none⟩] ∧
    (set_min_max_datetimes 0 1).min_datetime < (3600 : Int) ∧
    (3600 : Int) < (set_min_max_datetimes 0 1).max_datetime := by
  have h := c6_delete_frame 0 [⟨"a", 3600, none, none⟩, ⟨"b", 300000, none, none⟩] "1"
    (fun _ => true) true 1
    ⟨[⟨"a", 3600, none, none⟩], false, true, some [⟨"b", 300000, none, none⟩]⟩
    rfl (by decide) rfl
  exact h.1 ⟨"a", 3600, none, none⟩ (by simp)

/-- Claim C7: for a valid non-falsy day count over a store whose repeat
values are nonnegative (the data-model invariant), Delete writes iff the
candidate set is non-empty and the user confirms; an empty candidate set
reports "nothing to delete" and stops with no prompt and no write; a
declined confirmation leaves the store unwritten. -/
theorem c7_delete_write_guard (now : Int) (events : List Event) (arg : String)
    (ans : Event → Bool) (confirm : Bool) (n : Int)
    (hp : return_int_or_false_from_str arg false = some n) (hn : ¬n = 0)
    (hval : ∀ e ∈ events, 0 ≤ repeatOrZero e) :
    ∃ out, delete_events now events arg ans confirm = some out ∧
      (out.written.isSome ↔ (out.to_delete ≠ [] ∧ confirm = true)) ∧
      (out.to_delete = [] →
        out.reported_nothing = true ∧ out.prompted = false ∧ out.written = none) ∧
      (out.to_delete ≠ [] → out.prompted = true) ∧
      (confirm = false → out.written = none) := by
  rw [delete_events_eq now events arg ans confirm n hp hn]
  by_cases hemp :
      (truncate_event_lists (set_min_max_datetimes now n) (sort_events_list events)).1 = []
  · rw [if_pos hemp]
    refine ⟨⟨[], true, false, none⟩, rfl, ?_, ?_, ?_, ?_⟩ <;> simp
  · rw [if_neg hemp]
    have hnn : ∀ e ∈ (truncate_event_lists (set_min_max_datetimes now n)
        (sort_events_list events)).1, 0 ≤ repeatOrZero e := by
      intro e he
      exact hval e ((mem_sort_events_list _ _).mp ((mem_truncate_fst _ _ _).mp he).1)
    obtain ⟨kept2, hcont⟩ := continuations_total _ (set_min_max_datetimes now n)
      (truncate_event_lists (set_min_max_datetimes now n) (sort_events_list events)).2
      ans hnn
    rw [hcont]
    refine ⟨⟨(truncate_event_lists (set_min_max_datetimes now n)
        (sort_events_list events)).1, false, true,
        if confirm then some kept2 else none⟩, rfl, ?_, ?_, ?_, ?_⟩
    · cases confirm <;> simp [hemp]
    · intro hc
      exact absurd hc hemp
    · intro _
      rfl
    · intro hc
      rw [hc]
      simp

/-- Claim C7 witness. -/
theorem c7_delete_write_guard_witness :
    ∃ out, delete_events 0 [⟨"a", (3600 : Int), none, none⟩] "1"
        (fun _ => true) true = some out ∧
      (out.written.isSome ↔ (out.to_delete ≠ [] ∧ (true : Bool) = true)) ∧
      (out.to_delete = [] →
        out.reported_nothing = true ∧ out.prompted = false ∧ out.written = none) ∧
      (out.to_delete ≠ [] → out.prompted = true) ∧
      ((true : Bool) = false → out.written = none) :=
  c7_delete_write_guard 0 [⟨"a", 3600, none, none⟩] "1" (fun _ => true) true 1
    rfl (by decide) (by decide)

/-- Claim C8 counterexample: a record whose timestamp is present but
malformed ("garbage" is not ISO-parseable) passes the load-time check,
so the operation does not abort at load time on a not-well-formed
timestamp — only missing keys are rejected. -/
theorem c8_counterexample_malformed_timestamp_passes_load :
    check_event_keys [⟨some "standup", some "garbage", none, none⟩] = true ∧
    diary_init [⟨some "standup", some "garbage", none, none⟩] =
      some [⟨some "standup", some "garbage", none, none⟩] ∧
    get_datetime_from_event_dict ⟨some "standup", some "garbage", none, none⟩ = none := by
  exact ⟨rfl, rfl, rfl⟩

/-- Claim C8 as amended: a loaded list containing a record that lacks
the title key or the timestamp key makes the whole operation abort at
load time, before any operation (and hence any write) is dispatched;
when the load gate passes, the list is handed over unchanged — no record
is silently dropped.  Well-formedness of present fields is not checked
at load time. -/
theorem c8_load_gate (events : List RawEvent) :
    ((∃ e ∈ events, e.title = none ∨ e.iso = none) → diary_init events = none) ∧
    (∀ l, diary_init events = some l → l = events) := by
  constructor
  · rintro ⟨e, he, hmiss⟩
    have hck : check_event_keys events = false := by
      rw [check_event_keys]
      rw [List.all_eq_false]
      refine ⟨e, he, ?_⟩
      rcases hmiss with h | h <;> simp [h]
    rw [diary_init, hck]
    simp
  · intro l hl
    rw [diary_init] at hl
    by_cases hc : check_event_keys events = true
    · rw [if_pos hc] at hl
      exact (Option.some.inj hl).symm
    · rw [if_neg hc] at hl
      simp at hl

/-- Claim C8 witness: a record with a missing title aborts the load. -/
theorem c8_load_gate_witness :
    diary_init [⟨none, some "2024-03-05 10:30:00", none, none⟩] = none :=
  (c8_load_gate [⟨none, some "2024-03-05 10:30:00", none, none⟩]).1
    ⟨⟨none, some "2024-03-05 10:30:00", none, none⟩, by simp, Or.inl rfl⟩

end Diary
